import Mathlib

/-!
Verification of the AI-Agent-Orchestration-Hub core against its
natural-language specification.

The development shallowly embeds the in-scope components:
* `src/api/memory.py` (`MemoryManager`): the session context store with a
  networked (Redis) backend and an in-process fallback.  Redis itself is
  modelled as a key/value table with per-key expiry timestamps; wall-clock
  time is an explicit `Nat` parameter (`datetime.now()` / the server clock),
  and the outcome of the bounded-time connection probe
  (`await asyncio.wait_for(ping(), 2.0)`) is an explicit `Bool` parameter.
  JSON serialization round-trips on the stored values, so it is modelled as
  the identity and values are an opaque alias `Val := String`.
* `src/api/agents/base_agent.py` (`BaseAgent.run`) together with the
  concrete `process` overrides (`data_analyst.py`, `copywriter.py`,
  `researcher.py`): statuses are recorded as an explicit trace of the
  `_update_status` calls, and Python exceptions are `Except` values.
* `src/api/orchestrator.py` (`Orchestrator`): strategy selection,
  sequential execution with per-agent timeouts, result aggregation and the
  fallback report.
-/

namespace AgentHub

/-- Stored values.  `json.dumps`/`json.loads` round-trip on the
JSON-serializable payloads the program stores, so serialization is modelled
as the identity and the value domain is kept opaque. -/
abbrev Val := String

/-! ## Context store (`src/api/memory.py`, class `MemoryManager`) -/

/-- State of one `MemoryManager` instance together with the contents of the
Redis server it talks to.  `redisClient` is `true` iff `self.redis_client`
is not `None`; `store` is the Redis server's table (key, value, expiresAt);
`mem` merges the always-jointly-updated dicts `in_memory_store` and
`expiry_times` into one association list (key, value, expiresAt). -/
structure MMState where
  redisClient : Bool
  useRedis : Bool
  store : List (String × Val × Nat)
  mem : List (String × Val × Nat)
deriving DecidableEq

/-- A freshly constructed `MemoryManager`: `redis_client = None`,
`use_redis = True`, and empty stores. -/
def initMM : MMState := ⟨false, true, [], []⟩

/-- Embeds `MemoryManager._get_redis_client`.  `probe` is the outcome of the
bounded-time connection test (`ping` within 2s).  Returns the new state,
whether a client object is available, and whether a connection probe was
attempted by this call. -/
def getRedisClientStep (s : MMState) (probe : Bool) : MMState × Bool × Bool :=
  if s.redisClient then (s, true, false)
  else if probe then ({ s with redisClient := true, useRedis := true }, true, true)
  else ({ s with redisClient := false, useRedis := false }, false, true)

/-- Key-overwriting insertion into an association table (`setex` on the
Redis side, paired dict assignment on the in-memory side). -/
def alSet (l : List (String × Val × Nat)) (k : String) (v : Val) (e : Nat) :
    List (String × Val × Nat) :=
  (k, v, e) :: l.filter (fun p => p.1 ≠ k)

/-- Lookup by key in an association table. -/
def lookupVal (l : List (String × Val × Nat)) (k : String) : Option (Val × Nat) :=
  match l.find? (fun p => p.1 == k) with
  | some p => some p.2
  | none => none

/-- Embeds `MemoryManager._cleanup_expired`: drop every entry whose expiry
time is `<=` the current time. -/
def cleanupExpired (mem : List (String × Val × Nat)) (now : Nat) :
    List (String × Val × Nat) :=
  mem.filter (fun p => now < p.2.2)

/-- The full Redis key `f"session:{session_id}:{key}"`. -/
def mkKey (sid k : String) : String := "session:" ++ sid ++ ":" ++ k

/-- Embeds `MemoryManager.store_context` (with the TTL argument already
resolved, default 3600).  Returns the new state and the boolean result. -/
def storeContext (s : MMState) (probe : Bool) (now : Nat) (sid k : String)
    (v : Val) (ttl : Nat) : MMState × Bool :=
  let step := getRedisClientStep s probe
  let s1 := step.1
  if s1.useRedis && step.2.1 then
    ({ s1 with store := alSet s1.store (mkKey sid k) v (now + ttl) }, true)
  else
    ({ s1 with mem := alSet (cleanupExpired s1.mem now) (mkKey sid k) v (now + ttl) }, true)

/-- A Redis `GET`: the value if present and not yet expired, otherwise
absent (Redis drops a key once its TTL has elapsed). -/
def redisGet (store : List (String × Val × Nat)) (now : Nat) (k : String) :
    Option Val :=
  match lookupVal store k with
  | some (v, e) => if now < e then some v else none
  | none => none

/-- Embeds `MemoryManager.get_context`.  Returns the new state and the
retrieved value (`None` for missing/expired). -/
def getContext (s : MMState) (probe : Bool) (now : Nat) (sid k : String) :
    MMState × Option Val :=
  let step := getRedisClientStep s probe
  let s1 := step.1
  if s1.useRedis && step.2.1 then
    (s1, redisGet s1.store now (mkKey sid k))
  else
    let mem' := cleanupExpired s1.mem now
    ({ s1 with mem := mem' }, (lookupVal mem' (mkKey sid k)).map (·.1))

/-- The segments of `str.split(":")`. -/
def splitCols : List Char → List (List Char)
  | [] => [[]]
  | c :: rest =>
    let r := splitCols rest
    if c = ':' then [] :: r
    else
      match r with
      | [] => [[c]]
      | h :: t => (c :: h) :: t

/-- The last `:`-separated segment of a key, `key.split(":")[-1]`. -/
def lastSeg (k : String) : String := String.mk ((splitCols k.data).getLastD [])

/-- The scan pattern `f"session:{session_id}:*"`: a key matches iff it
starts with `session:<sid>:`. -/
def sessPat (sid : String) : String := "session:" ++ sid ++ ":"

/-- String prefix test, on the underlying character lists. -/
def strIsPre (p s : String) : Bool := p.data.isPrefixOf s.data

/-- A Redis `KEYS session:<sid>:*` call: every non-expired key of the server
table matching the pattern, in table order. -/
def redisKeys (store : List (String × Val × Nat)) (now : Nat) (pat : String) :
    List String :=
  (store.filter (fun p => strIsPre pat p.1 && decide (now < p.2.2))).map (·.1)

/-- Python dict assignment `d[k] = v`: overwrite in place if the key is
present, otherwise append (insertion order preserved). -/
def dictInsert (d : List (String × Val)) (k : String) (v : Val) :
    List (String × Val) :=
  if d.any (fun p => p.1 == k) then
    d.map (fun p => if p.1 == k then (k, v) else p)
  else d ++ [(k, v)]

/-- Embeds `MemoryManager.get_full_context`.  When no client object is
available (`redis_client is None`), the call `redis_client.keys(...)`
raises `AttributeError`, which the `except` clause converts to `{}` — the
in-memory store is never consulted.  Otherwise the session's non-expired
Redis keys are scanned and each value recorded under
`key.split(":")[-1]`. -/
def getFullContext (s : MMState) (probe : Bool) (now : Nat) (sid : String) :
    MMState × List (String × Val) :=
  let step := getRedisClientStep s probe
  let s1 := step.1
  if step.2.1 then
    let ks := redisKeys s1.store now (sessPat sid)
    (s1, ks.foldl (fun ctx k =>
      match redisGet s1.store now k with
      | some v => dictInsert ctx (lastSeg k) v
      | none => ctx) [])
  else
    (s1, [])

/-! ## Worker lifecycle (`src/api/agents/base_agent.py` and the `process`
overrides in `data_analyst.py` / `copywriter.py` / `researcher.py`) -/

/-- The `AgentStatus` enumeration. -/
inductive AStat
  | idle
  | running
  | completed
  | error
deriving DecidableEq

/-- The failure record `BaseAgent.run` returns when `process` raises past
its boundary: `{"agent": ..., "status": "error", "error": str(e),
"result": None}`. -/
structure FailureRecord where
  agent : String
  status : String
  err : String
deriving DecidableEq

/-- The value `run` hands back to the coordinator: either the `process`
result or the failure record. -/
inductive RunReturn
  | success (r : Val)
  | failure (rec : FailureRecord)
deriving DecidableEq

/-- Embeds `BaseAgent.run`.  The variant-specific `process` is summarised by
the trace of `_update_status` calls it performs (`procTrace`) and its
outcome (`Except.ok` a result dict, or `Except.error` when it raises past
its own boundary).  `load_context` and `store_result` catch internally and
never raise.  The first component is the full `_update_status` trace of the
`run` call, the second its return value. -/
def baseRun (ag : String) (procTrace : List AStat)
    (procOutcome : Except String Val) : List AStat × RunReturn :=
  match procOutcome with
  | .ok r => ([.running] ++ procTrace ++ [.completed], .success r)
  | .error e => ([.running] ++ procTrace ++ [.error], .failure ⟨ag, "error", e⟩)

/-- Status updates performed by `DataAnalystAgent.process` (identical shape
in `CopywriterAgent.process` and `ResearcherAgent.process`): `RUNNING` on
entry, then `COMPLETED` on success, or — because the whole body is wrapped
in `try/except` — `ERROR` when the body raises, returning an error dict
rather than re-raising. -/
def analystProcessTrace (raiseInternal : Bool) : List AStat :=
  if raiseInternal then [.running, .error] else [.running, .completed]

/-- The `_update_status` trace of a full `DataAnalystAgent.run` call:
`process` catches its own exceptions, so its outcome is always `Except.ok`
(an ordinary dict on success, an error dict when the body raised). -/
def analystRunTrace (raiseInternal : Bool) : List AStat :=
  (baseRun "data_analyst" (analystProcessTrace raiseInternal) (.ok "result")).1

/-- No `COMPLETED` update ever follows an `ERROR` update in the trace. -/
def noRevert : List AStat → Bool
  | [] => true
  | .error :: rest => !rest.contains .completed && noRevert rest
  | _ :: rest => noRevert rest

/-- Status rank along the monotonic path `Idle → Running → terminal`. -/
def statusRank : AStat → Nat
  | .idle => 0
  | .running => 1
  | .completed => 2
  | .error => 2

/-! ## Execution strategy selection
(`Orchestrator._determine_execution_strategy`) -/

/-- The `ExecutionMode` enumeration. -/
inductive ExecutionMode
  | sequential
  | parallel
  | dynamic
deriving DecidableEq

/-- Lowercasing, `query.lower()` (ASCII queries). -/
def lowerStr (s : String) : String := String.mk (s.data.map Char.toLower)

/-- Python substring containment `sub in l`. -/
def containsSub (l sub : List Char) : Bool :=
  match l with
  | [] => sub.isEmpty
  | _ :: t => sub.isPrefixOf l || containsSub t sub

/-- Substring containment on strings. -/
def strContains (s sub : String) : Bool := containsSub s.data sub.data

/-- The brevity/summary keyword class. -/
def brevityKws : List String := ["quick", "summary", "brief", "overview"]

/-- The depth/thoroughness keyword class. -/
def depthKws : List String := ["detailed", "comprehensive", "thorough", "deep"]

/-- Embeds `Orchestrator._determine_execution_strategy`: a pure function of
the query text. -/
def determineExecutionStrategy (query : String) : ExecutionMode :=
  let ql := lowerStr query
  if brevityKws.any (fun k => strContains ql k) then .parallel
  else if depthKws.any (fun k => strContains ql k) then .sequential
  else .sequential

/-! ## Sequential execution over the shared store
(`Orchestrator._execute_sequential` together with `BaseAgent.load_context`
and `BaseAgent.store_result`) -/

/-- The fixed sequential order of `_execute_sequential`. -/
def agentNames : List String := ["data_analyst", "researcher", "copywriter"]

/-- The store interactions of one `run` call: `load_context` (that is,
`get_full_context` on the session) followed by `store_result` (that is,
`store_context` under the key `agent_output:<name>` with the default TTL
3600).  `res` is the worker's domain result.  Returns the new store state
and the context snapshot the worker loaded. -/
def workerRunMem (s : MMState) (probe : Bool) (now : Nat) (sid name : String)
    (res : Val) : MMState × List (String × Val) :=
  let load := getFullContext s probe now sid
  let s2 := (storeContext load.1 probe now sid ("agent_output:" ++ name) res 3600).1
  (s2, load.2)

/-- The store interactions of `_execute_sequential`: the three workers run
in the fixed order, each loading its context snapshot before writing its
own output.  Returns the final store state and, per worker, the context it
loaded. -/
def seqExecMem (s : MMState) (probe : Bool) (now : Nat) (sid : String)
    (res : String → Val) : MMState × List (String × List (String × Val)) :=
  agentNames.foldl (fun acc name =>
    let step := workerRunMem acc.1 probe now sid name (res name)
    (step.1, acc.2 ++ [(name, step.2)])) (s, [])

/-- The two writes `process_request` performs before executing any agent:
the original query and the execution mode. -/
def prOrchInit (s : MMState) (probe : Bool) (now : Nat) (sid : String)
    (q mode : Val) : MMState :=
  let s1 := (storeContext s probe now sid "original_query" q 3600).1
  (storeContext s1 probe now sid "execution_mode" mode 3600).1

/-! ## Sequential execution with timeouts
(`Orchestrator._execute_sequential`, result level) -/

/-- The per-agent timeout `self.agent_timeout = 300` (seconds). -/
def agentTimeout : Nat := 300

/-- How one agent `run` call behaves from the coordinator's viewpoint:
it completes after `dur` seconds with a result dict, or raises (only
possible for substituted/mocked workers — `BaseAgent.run` itself never
raises). -/
inductive RunBehavior
  | completes (dur : Nat) (r : Val)
  | raises (msg : String)
deriving DecidableEq

/-- Outcome of `asyncio.wait_for(agent.run(...), timeout=300)`:
`TimeoutError` exactly when the call takes longer than the deadline. -/
inductive CallOutcome
  | ok (r : Val)
  | timedOut
  | raised (msg : String)
deriving DecidableEq

/-- One wrapped agent call in `_execute_sequential`. -/
def callAgent (b : RunBehavior) : CallOutcome :=
  match b with
  | .completes d r => if agentTimeout < d then .timedOut else .ok r
  | .raises m => .raised m

/-- The `results` dict `_execute_sequential` returns, plus the
model-level bookkeeping field `invoked` recording which workers' `run`
methods were actually called. -/
structure SeqRecord where
  dataAnalyst : Option Val
  researcher : Option Val
  copywriter : Option Val
  error : Option String
  executionMode : Option String
  executionOrder : List String
  invoked : List String
deriving DecidableEq

/-- Embeds `Orchestrator._execute_sequential` at the result level: Data
Analyst, then Researcher, then Copywriter, each bounded by the 300s
timeout; `asyncio.TimeoutError` sets `results["error"] = "Agent execution
timeout"` and returns the results collected so far; any other exception
sets `results["error"] = str(e)` likewise. -/
def executeSequential (bda bre bco : RunBehavior) : SeqRecord :=
  match callAgent bda with
  | .timedOut => ⟨none, none, none, some "Agent execution timeout", none, [], ["data_analyst"]⟩
  | .raised m => ⟨none, none, none, some m, none, [], ["data_analyst"]⟩
  | .ok r1 =>
    match callAgent bre with
    | .timedOut => ⟨some r1, none, none, some "Agent execution timeout", none, [],
        ["data_analyst", "researcher"]⟩
    | .raised m => ⟨some r1, none, none, some m, none, [], ["data_analyst", "researcher"]⟩
    | .ok r2 =>
      match callAgent bco with
      | .timedOut => ⟨some r1, some r2, none, some "Agent execution timeout", none, [],
          ["data_analyst", "researcher", "copywriter"]⟩
      | .raised m => ⟨some r1, some r2, none, some m, none, [],
          ["data_analyst", "researcher", "copywriter"]⟩
      | .ok r3 => ⟨some r1, some r2, some r3, none, some "sequential",
          ["data_analyst", "researcher", "copywriter"],
          ["data_analyst", "researcher", "copywriter"]⟩

/-! ## Aggregation and the fallback report
(`Orchestrator._aggregate_results`, `Orchestrator._create_fallback_report`) -/

/-- The fields of a Data Analyst / Researcher result dict that aggregation
reads. -/
structure WorkerOut where
  status : String
  insights : List String
  recommendations : List String
deriving DecidableEq

/-- The fields of the Copywriter result dict that aggregation reads. -/
structure CopyOut where
  status : String
  finalReport : String
  executiveSummary : String
  keyFindings : List String
  recommendations : List String
deriving DecidableEq

/-- The global status computed in `_aggregate_results`: `"error"` when the
run carried an error or any agent reported `"error"`, `"running"` when any
agent reported `"running"`, `"completed"` otherwise. -/
def globalStatus (d r : WorkerOut) (c : CopyOut) (err : Option String) : String :=
  if err.isSome || d.status == "error" || r.status == "error" || c.status == "error" then
    "error"
  else if d.status == "running" || r.status == "running" || c.status == "running" then
    "running"
  else "completed"

/-- Python `"\n".join`. -/
def joinNl : List String → String
  | [] => ""
  | [x] => x
  | x :: xs => x ++ "\n" ++ joinNl xs

/-- The section list built by `Orchestrator._create_fallback_report`: a
fixed header; a data-analysis section when the analyst produced insights
(first 5); a research section when the researcher produced insights
(first 5); a recommendations section from the first 3 recommendations of
each of the two agents; and a fixed footer. -/
def fallbackSections (d r : WorkerOut) (query : String) : List String :=
  ["# Analysis Report: " ++ query ++ "\n",
   "## Executive Summary",
   "This report provides analysis results for: " ++ query ++ "\n"]
  ++ (if d.insights.isEmpty then [] else
      ["## Data Analysis Results", "Key quantitative insights:"]
      ++ (d.insights.take 5).map (fun i => "- " ++ i) ++ [""])
  ++ (if r.insights.isEmpty then [] else
      ["## Research Findings", "Market research insights:"]
      ++ (r.insights.take 5).map (fun i => "- " ++ i) ++ [""])
  ++ (let recs := d.recommendations.take 3 ++ r.recommendations.take 3
      if recs.isEmpty then [] else
      ["## Strategic Recommendations"] ++ recs.map (fun i => "- " ++ i) ++ [""])
  ++ ["\n---\nReport generated by AI Agent Orchestration Hub"]

/-- Embeds `Orchestrator._create_fallback_report`. -/
def createFallbackReport (d r : WorkerOut) (query : String) : String :=
  joinNl (fallbackSections d r query)

/-- The aggregated payload fields relevant to the final report. -/
structure AggResult where
  sessionId : String
  status : String
  query : String
  finalReport : String
  executiveSummary : String
  keyFindings : List String
  recommendations : List String
deriving DecidableEq

/-- Embeds the final-report part of `Orchestrator._aggregate_results`:
`final_report` is the copywriter's report, replaced by the deterministic
fallback report exactly when it is empty and the global status is
`"completed"`. -/
def aggregateResults (d r : WorkerOut) (c : CopyOut) (err : Option String)
    (query sid : String) : AggResult :=
  let gs := globalStatus d r c err
  let fr := if c.finalReport == "" && gs == "completed" then
      createFallbackReport d r query
    else c.finalReport
  ⟨sid, gs, query, fr, c.executiveSummary, c.keyFindings, c.recommendations⟩

/-! ## Claim C1 — backend downgrade

The claim says the downgrade decision is made at most once and that later
calls never re-attempt the connection nor switch back.  In the code,
`_get_redis_client` sets `self.redis_client = None` on a failed probe, so
the very next call finds `redis_client is None` and probes again — and a
later successful probe switches the instance back to Redis. -/

/-- C1 (counterexample): a `store_context` call observes a connection
failure (the instance downgrades, `use_redis = False`); the next call
re-attempts the connection probe, and, the probe now succeeding, the
instance switches back to the networked backend — contradicting both the
"no later call re-attempts" and "never switches back" parts of the
claim. -/
theorem c1_counterexample :
    (getRedisClientStep ((storeContext initMM false 0 "s" "k" "v" 3600).1) true).2.2 = true ∧
    ((storeContext ((storeContext initMM false 0 "s" "k" "v" 3600).1) true 1 "s" "k2" "w" 3600).1).useRedis
      = true := by
  decide

/-- C1 (amended): the connection probe is re-attempted on every call for
which `redis_client` is `None`: a failed probe downgrades the instance only
until the next call, which probes again; a successful probe pins the
networked backend for the rest of the instance's lifetime (no later call
re-probes).  `store_context` leaves the client-presence flag exactly where
`_get_redis_client` put it. -/
theorem c1_amended_thm :
    (∀ (s : MMState) (probe : Bool), s.redisClient = true →
      getRedisClientStep s probe = (s, true, false)) ∧
    (∀ (s : MMState) (probe : Bool), s.redisClient = false →
      (getRedisClientStep s probe).2.2 = true ∧
      (getRedisClientStep s probe).1.useRedis = probe ∧
      (getRedisClientStep s probe).1.redisClient = probe) ∧
    (∀ (s : MMState) (probe : Bool) (now : Nat) (sid k : String) (v : Val) (ttl : Nat),
      ((storeContext s probe now sid k v ttl).1).redisClient
        = (getRedisClientStep s probe).1.redisClient) := by
  refine ⟨fun s probe h => ?_, fun s probe h => ?_, fun s probe now sid k v ttl => ?_⟩
  · simp [getRedisClientStep, h]
  · cases probe <;> simp [getRedisClientStep, h]
  · by_cases h : s.redisClient <;> cases probe <;>
      simp [storeContext, getRedisClientStep, h] <;>
      split <;> rfl

/-- C1 (witness for the amended theorem): concrete instances of its three
parts. -/
theorem c1_amended_witness :
    getRedisClientStep ⟨true, true, [], []⟩ false = (⟨true, true, [], []⟩, true, false) ∧
    ((getRedisClientStep initMM true).2.2 = true ∧
      (getRedisClientStep initMM true).1.useRedis = true ∧
      (getRedisClientStep initMM true).1.redisClient = true) ∧
    ((storeContext initMM false 0 "s" "k" "v" 7).1).redisClient
      = (getRedisClientStep initMM false).1.redisClient :=
  ⟨c1_amended_thm.1 ⟨true, true, [], []⟩ false rfl,
   c1_amended_thm.2.1 initMM true rfl,
   c1_amended_thm.2.2 initMM false 0 "s" "k" "v" 7⟩

/-! ## Claim C2 — status monotonicity within one `run` invocation

`DataAnalystAgent.process` (and the other variants) wrap their whole body
in `try/except`, set `ERROR` themselves, and *return* an error dict instead
of re-raising; `BaseAgent.run` then proceeds normally and sets `COMPLETED`.
So the status does revert from the error state to Completed before `run`
returns. -/

/-- C2 (counterexample): in a `DataAnalystAgent.run` invocation whose
`process` body raises, the `_update_status` trace is
`RUNNING, RUNNING, ERROR, COMPLETED` — the status is set to `COMPLETED`
after having been set to the error state, refuting the claim. -/
theorem c2_counterexample :
    analystRunTrace true = [.running, .running, .error, .completed] ∧
    noRevert (.idle :: analystRunTrace true) = false := by
  decide

/-- C2 (amended): within a single `run` invocation the trace is
`Running, Running, Completed, Completed` when the variant's `process` body
succeeds (monotone, never reverting), but when the body raises, the
variant's own handler sets the error state and returns an error dict, after
which `run` sets `Completed` — the status reverts from the error state to
`Completed` exactly in that case.  Only a `process` that raises past its
own boundary leaves `run` with a final status of `ERROR` and no subsequent
`Completed`. -/
theorem c2_amended_thm :
    (∀ b : Bool,
      analystRunTrace b =
        (if b then [.running, .running, .error, .completed]
         else [.running, .running, .completed, .completed]) ∧
      (b = false → noRevert (.idle :: analystRunTrace b) = true) ∧
      (b = true → noRevert (.idle :: analystRunTrace b) = false)) ∧
    (∀ (ag : String) (tr : List AStat) (e : String),
      ((baseRun ag tr (.error e)).1).getLast? = some .error) := by
  constructor
  · intro b
    cases b <;> refine ⟨by decide, ?_, ?_⟩ <;> intro h <;> first | decide | cases h
  · intro ag tr e
    show (([.running] ++ tr ++ [.error] : List AStat)).getLast? = some .error
    rw [List.getLast?_append_of_ne_nil _ (List.cons_ne_nil _ _)]
    rfl

/-- C2 (witness for the amended theorem): concrete instances of both
parts. -/
theorem c2_amended_witness :
    analystRunTrace false = [.running, .running, .completed, .completed] ∧
    noRevert (.idle :: analystRunTrace false) = true ∧
    ((baseRun "researcher" [.running] (.error "boom")).1).getLast? = some .error :=
  ⟨(c2_amended_thm.1 false).1, (c2_amended_thm.1 false).2.1 rfl,
   c2_amended_thm.2 "researcher" [.running] "boom"⟩

/-! ## Claim C5 — `run` never propagates an exception -/

/-- C5 (confirmed): `BaseAgent.run` is a total function into result values:
whatever the variant-specific `process` does, the coordinator receives a
`RunReturn`.  When `process` raises with description `e`, `run` returns the
result-shaped failure record carrying the worker identifier, status
`"error"` and the description; when `process` returns a result, `run`
returns it. -/
theorem c5_run_total (ag : String) (procTrace : List AStat)
    (po : Except String Val) :
    (∀ e : String, po = .error e →
      (baseRun ag procTrace po).2 = .failure ⟨ag, "error", e⟩) ∧
    (∀ r : Val, po = .ok r → (baseRun ag procTrace po).2 = .success r) := by
  constructor
  · intro e h; subst h; rfl
  · intro r h; subst h; rfl

/-- C5 (witness): a raising `process` yields exactly the failure record,
and a succeeding one yields its result. -/
theorem c5_run_total_witness :
    (baseRun "data_analyst" [.running] (.error "boom")).2
      = .failure ⟨"data_analyst", "error", "boom"⟩ ∧
    (baseRun "data_analyst" [.running, .completed] (.ok "out")).2 = .success "out" :=
  ⟨(c5_run_total "data_analyst" [.running] (.error "boom")).1 "boom" rfl,
   (c5_run_total "data_analyst" [.running, .completed] (.ok "out")).2 "out" rfl⟩

/-! ## Claim C6 — a sequential timeout halts the sequence -/

/-- C6 (confirmed): in `_execute_sequential`, whichever worker first
exceeds the 300s per-worker timeout, the record carries
`error = "Agent execution timeout"`, the workers after it are never
invoked (and their result slots stay empty), and the results of workers
that completed earlier are retained. -/
theorem c6_sequential_timeout :
    (∀ (d : Nat) (r : Val) (b2 b3 : RunBehavior), agentTimeout < d →
      executeSequential (.completes d r) b2 b3 =
        ⟨none, none, none, some "Agent execution timeout", none, [], ["data_analyst"]⟩) ∧
    (∀ (d1 : Nat) (r1 : Val) (d2 : Nat) (r2 : Val) (b3 : RunBehavior),
      d1 ≤ agentTimeout → agentTimeout < d2 →
      executeSequential (.completes d1 r1) (.completes d2 r2) b3 =
        ⟨some r1, none, none, some "Agent execution timeout", none, [],
          ["data_analyst", "researcher"]⟩) ∧
    (∀ (d1 : Nat) (r1 : Val) (d2 : Nat) (r2 : Val) (d3 : Nat) (r3 : Val),
      d1 ≤ agentTimeout → d2 ≤ agentTimeout → agentTimeout < d3 →
      executeSequential (.completes d1 r1) (.completes d2 r2) (.completes d3 r3) =
        ⟨some r1, some r2, none, some "Agent execution timeout", none, [],
          ["data_analyst", "researcher", "copywriter"]⟩) := by
  refine ⟨fun d r b2 b3 h => ?_, fun d1 r1 d2 r2 b3 h1 h2 => ?_,
    fun d1 r1 d2 r2 d3 r3 h1 h2 h3 => ?_⟩
  · simp [executeSequential, callAgent, h]
  · simp [executeSequential, callAgent, h2, Nat.not_lt.mpr h1]
  · simp [executeSequential, callAgent, h3, Nat.not_lt.mpr h1, Nat.not_lt.mpr h2]

/-- C6 (witness): the researcher times out after 301s; the copywriter is
never invoked and the analyst's result is retained. -/
theorem c6_sequential_timeout_witness :
    executeSequential (.completes 10 "ra") (.completes 301 "rb") (.completes 10 "rc") =
      ⟨some "ra", none, none, some "Agent execution timeout", none, [],
        ["data_analyst", "researcher"]⟩ :=
  c6_sequential_timeout.2.1 10 "ra" 301 "rb" (.completes 10 "rc")
    (by decide) (by decide)

/-! ## Claim C8 — strategy selection -/

/-- C8 (confirmed): strategy selection is the pure function
`determineExecutionStrategy` of the query text; any query whose lowercase
text contains a brevity keyword selects Parallel; the two scenario queries
select Parallel and Sequential respectively; and a query containing
neither keyword class selects Sequential by default. -/
theorem c8_strategy_selection :
    (∀ q : String, brevityKws.any (fun k => strContains (lowerStr q) k) = true →
      determineExecutionStrategy q = .parallel) ∧
    determineExecutionStrategy "quick summary of market trends" = .parallel ∧
    determineExecutionStrategy "comprehensive detailed analysis" = .sequential ∧
    (∀ q : String, brevityKws.any (fun k => strContains (lowerStr q) k) = false →
      depthKws.any (fun k => strContains (lowerStr q) k) = false →
      determineExecutionStrategy q = .sequential) := by
  refine ⟨fun q h => ?_, by decide, by decide, fun q h1 h2 => ?_⟩
  · simp [determineExecutionStrategy, h]
  · simp [determineExecutionStrategy, h1, h2]

/-- C8 (witness): a brevity query selects Parallel; a query with neither
keyword class falls back to Sequential. -/
theorem c8_strategy_selection_witness :
    determineExecutionStrategy "quick look at prices" = .parallel ∧
    determineExecutionStrategy "hello world" = .sequential :=
  ⟨c8_strategy_selection.1 "quick look at prices" (by decide),
   c8_strategy_selection.2.2.2 "hello world" (by decide) (by decide)⟩

/-! ## Claim C10 — the brevity branch wins over the depth branch -/

/-- C10 (confirmed): when the lowercase query contains both a brevity and a
depth keyword, the first branch of `_determine_execution_strategy` wins and
the result is Parallel; the depth class is never consulted. -/
theorem c10_brevity_wins (q : String)
    (hb : brevityKws.any (fun k => strContains (lowerStr q) k) = true)
    (_hd : depthKws.any (fun k => strContains (lowerStr q) k) = true) :
    determineExecutionStrategy q = .parallel := by
  simp [determineExecutionStrategy, hb]

/-- C10 (witness): a query containing both "quick" (brevity) and "detailed"
(depth) selects Parallel. -/
theorem c10_brevity_wins_witness :
    determineExecutionStrategy "quick but detailed overview" = .parallel :=
  c10_brevity_wins "quick but detailed overview" (by decide) (by decide)

/-! ## Claim C7 — store/get round-trip bounded by the TTL

Helper lemmas about the association-table primitives, then the claim for
both backends. -/

/-- A fallback-mode `store_context` call: the probe fails again, the state
stays downgraded, and the entry lands in the in-memory store with expiry
`now + ttl` after the lazy sweep. -/
theorem storeContext_fallback (s : MMState) (t0 ttl : Nat) (sid k : String) (v : Val)
    (h : s.redisClient = false) :
    (storeContext s false t0 sid k v ttl).1
      = { redisClient := false, useRedis := false, store := s.store,
          mem := alSet (cleanupExpired s.mem t0) (mkKey sid k) v (t0 + ttl) } := by
  cases s; simp_all [storeContext, getRedisClientStep]

/-- A networked-mode `store_context` call: `setex` with expiry `now + ttl`
on the Redis table. -/
theorem storeContext_redis (s : MMState) (probe : Bool) (t0 ttl : Nat) (sid k : String)
    (v : Val) (hc : s.redisClient = true) (hu : s.useRedis = true) :
    (storeContext s probe t0 sid k v ttl).1
      = { redisClient := true, useRedis := true,
          store := alSet s.store (mkKey sid k) v (t0 + ttl), mem := s.mem } := by
  cases s; simp_all [storeContext, getRedisClientStep]

/-- A fallback-mode `get_context` call sweeps the in-memory store and then
looks the key up. -/
theorem getContext_fallback (s : MMState) (t1 : Nat) (sid k : String)
    (h : s.redisClient = false) :
    (getContext s false t1 sid k).2
      = (lookupVal (cleanupExpired s.mem t1) (mkKey sid k)).map (fun p => p.1) := by
  cases s; simp_all [getContext, getRedisClientStep]

/-- A networked-mode `get_context` call is a Redis `GET`. -/
theorem getContext_redis (s : MMState) (probe : Bool) (t1 : Nat) (sid k : String)
    (hc : s.redisClient = true) (hu : s.useRedis = true) :
    (getContext s probe t1 sid k).2 = redisGet s.store t1 (mkKey sid k) := by
  cases s; simp_all [getContext, getRedisClientStep]

/-- Reading back a just-written Redis key yields the value until the
expiry time, absent afterwards. -/
theorem redisGet_alSet (l : List (String × Val × Nat)) (t1 : Nat) (k : String) (v : Val)
    (E : Nat) : redisGet (alSet l k v E) t1 k = if t1 < E then some v else none := by
  simp [redisGet, alSet, lookupVal, List.find?]

/-- Reading back a just-written in-memory key before its expiry yields the
value and its expiry timestamp. -/
theorem lookupVal_cleanup_alSet_fresh (M : List (String × Val × Nat)) (k : String) (v : Val)
    (E t1 : Nat) (h : t1 < E) :
    lookupVal (cleanupExpired (alSet M k v E) t1) k = some (v, E) := by
  simp [cleanupExpired, alSet, lookupVal, List.filter_cons, h, List.find?]

/-- Once the expiry time is reached, the lazy sweep removes the entry and
the lookup misses. -/
theorem lookupVal_cleanup_alSet_stale (M : List (String × Val × Nat)) (k : String) (v : Val)
    (E t1 : Nat) (h : ¬ t1 < E) :
    lookupVal (cleanupExpired (alSet M k v E) t1) k = none := by
  unfold lookupVal
  rw [List.find?_eq_none.mpr]
  intro x hx
  simp [cleanupExpired, alSet, List.mem_filter] at hx
  obtain ⟨hx1, hx2⟩ := hx
  rcases hx1 with rfl | ⟨_, hne⟩
  · exact absurd hx2 h
  · simp [hne]

/-- C7 (confirmed): on either backend, `store_context` at time `t0`
followed by `get_context` on the same session and key at time `t1` returns
the stored value unchanged while the TTL has not elapsed (`t1 < t0 + ttl`)
and returns `None` once it has, even though `clear_context` was never
called. -/
theorem c7_roundtrip_ttl :
    (∀ (s : MMState) (t0 t1 ttl : Nat) (sid k : String) (v : Val),
      s.redisClient = false →
      (getContext ((storeContext s false t0 sid k v ttl).1) false t1 sid k).2
        = if t1 < t0 + ttl then some v else none) ∧
    (∀ (s : MMState) (t0 t1 ttl : Nat) (sid k : String) (v : Val),
      s.redisClient = true → s.useRedis = true →
      (getContext ((storeContext s true t0 sid k v ttl).1) true t1 sid k).2
        = if t1 < t0 + ttl then some v else none) := by
  constructor
  · intro s t0 t1 ttl sid k v h
    rw [storeContext_fallback s t0 ttl sid k v h, getContext_fallback _ t1 sid k rfl]
    by_cases hE : t1 < t0 + ttl
    · rw [lookupVal_cleanup_alSet_fresh _ _ _ _ _ hE]
      simp [hE]
    · rw [lookupVal_cleanup_alSet_stale _ _ _ _ _ hE]
      simp [hE]
  · intro s t0 t1 ttl sid k v hc hu
    rw [storeContext_redis s true t0 ttl sid k v hc hu,
      getContext_redis _ true t1 sid k rfl rfl]
    exact redisGet_alSet _ _ _ _ _

/-- C7 (witness): with TTL 2, a read at time 1 returns the value and a
read at or past time 2 returns `None`, on both backends. -/
theorem c7_roundtrip_ttl_witness :
    (getContext ((storeContext initMM false 0 "s" "k" "v" 2).1) false 1 "s" "k").2 = some "v" ∧
    (getContext ((storeContext initMM false 0 "s" "k" "v" 2).1) false 2 "s" "k").2 = none ∧
    (getContext ((storeContext ⟨true, true, [], []⟩ true 0 "s" "k" "v" 2).1) true 1 "s" "k").2
      = some "v" ∧
    (getContext ((storeContext ⟨true, true, [], []⟩ true 0 "s" "k" "v" 2).1) true 5 "s" "k").2
      = none := by
  refine ⟨?_, ?_, ?_, ?_⟩
  · have h := c7_roundtrip_ttl.1 initMM 0 1 2 "s" "k" "v" rfl
    rw [if_pos (by decide)] at h
    exact h
  · have h := c7_roundtrip_ttl.1 initMM 0 2 2 "s" "k" "v" rfl
    rw [if_neg (by decide)] at h
    exact h
  · have h := c7_roundtrip_ttl.2 ⟨true, true, [], []⟩ 0 1 2 "s" "k" "v" rfl rfl
    rw [if_pos (by decide)] at h
    exact h
  · have h := c7_roundtrip_ttl.2 ⟨true, true, [], []⟩ 0 5 2 "s" "k" "v" rfl rfl
    rw [if_neg (by decide)] at h
    exact h

/-! ## Claim C9 — the deterministic fallback report -/

/-- Joining a non-empty section list is at least as long as its first
section. -/
theorem joinNl_length_pos (x : String) (xs : List String) (h : 0 < x.length) :
    0 < (joinNl (x :: xs)).length := by
  cases xs with
  | nil => simpa [joinNl]
  | cons y ys =>
    simp [joinNl, String.length_append]
    omega

/-- Taking the first five elements preserves (non-)emptiness. -/
theorem isEmpty_take_five (l : List String) : (l.take 5).isEmpty = l.isEmpty := by
  cases l <;> simp

/-- C9 (confirmed): when the copywriter produced no `final_report` text but
the aggregated status is `"completed"`, aggregation returns the
deterministic fallback report, which is a non-empty string, and which
depends only on the first 5 insights of each agent and the first 3
recommendations of each of the two agents (the bounded excerpts). -/
theorem c9_fallback_report (d r : WorkerOut) (c : CopyOut) (err : Option String)
    (q sid : String) (hfr : c.finalReport = "")
    (hgs : globalStatus d r c err = "completed") :
    (aggregateResults d r c err q sid).finalReport = createFallbackReport d r q ∧
    0 < (aggregateResults d r c err q sid).finalReport.length ∧
    createFallbackReport d r q
      = createFallbackReport ⟨d.status, d.insights.take 5, d.recommendations.take 3⟩
          ⟨r.status, r.insights.take 5, r.recommendations.take 3⟩ q := by
  have h1 : (aggregateResults d r c err q sid).finalReport = createFallbackReport d r q := by
    simp [aggregateResults, hfr, hgs]
  have hpos : 0 < (createFallbackReport d r q).length := by
    obtain ⟨rest, hrest⟩ : ∃ rest,
        fallbackSections d r q = ("# Analysis Report: " ++ q ++ "\n") :: rest := ⟨_, rfl⟩
    show 0 < (joinNl (fallbackSections d r q)).length
    rw [hrest]
    apply joinNl_length_pos
    simp [String.length_append]
    left; left
    decide
  refine ⟨h1, h1 ▸ hpos, ?_⟩
  simp [createFallbackReport, fallbackSections, List.take_take, isEmpty_take_five]

/-- C9 (witness): completed workers with insights and recommendations but
an empty copywriter report still yield a non-empty final report. -/
theorem c9_fallback_report_witness :
    (aggregateResults ⟨"completed", ["i1", "i2"], ["a", "b", "c", "d"]⟩
        ⟨"completed", ["j1"], ["e"]⟩ ⟨"completed", "", "", [], []⟩
        none "my query" "sid").finalReport
      = createFallbackReport ⟨"completed", ["i1", "i2"], ["a", "b", "c", "d"]⟩
          ⟨"completed", ["j1"], ["e"]⟩ "my query" ∧
    0 < (aggregateResults ⟨"completed", ["i1", "i2"], ["a", "b", "c", "d"]⟩
        ⟨"completed", ["j1"], ["e"]⟩ ⟨"completed", "", "", [], []⟩
        none "my query" "sid").finalReport.length := by
  have h := c9_fallback_report ⟨"completed", ["i1", "i2"], ["a", "b", "c", "d"]⟩
    ⟨"completed", ["j1"], ["e"]⟩ ⟨"completed", "", "", [], []⟩ none "my query" "sid"
    rfl (by decide)
  exact ⟨h.1, h.2.1⟩

/-! ## Claim C4 — sequential context visibility

The claim is unconditional over the store's backend.  It holds under the
networked backend, but under the in-process fallback `load_context`
(`get_full_context`) returns the empty mapping, so a worker's snapshot does
not contain its predecessors' writes even though those writes succeeded. -/

/-- C4 (counterexample): with the store in fallback mode (failed probes),
running the sequential pipeline stores the data analyst's output in the
in-memory store (unexpired, shown by the lookup), yet the researcher's —
and every worker's — loaded context snapshot is empty: the snapshot does
not contain the entry written by the worker that ran before it. -/
theorem c4_counterexample :
    lookupVal ((seqExecMem (prOrchInit initMM false 0 "sess" "q" "m") false 0 "sess"
        (fun _ => "r")).1).mem "session:sess:agent_output:data_analyst" = some ("r", 3600) ∧
    (seqExecMem (prOrchInit initMM false 0 "sess" "q" "m") false 0 "sess" (fun _ => "r")).2
      = [("data_analyst", []), ("researcher", []), ("copywriter", [])] := by
  decide

set_option maxHeartbeats 2000000 in
/-- C4 (amended): under the networked backend, each worker's loaded context
snapshot contains exactly the orchestrator's initial entries plus one entry
per predecessor (keyed by the trailing segment of its `agent_output:` key,
that is, the predecessor's name) and no entry of any worker at or after its
own position; under the in-process fallback every worker's snapshot is
empty.  Stated for arbitrary stored values, a representative session and
clock. -/
theorem c4_amended_thm (q m rda rre rco : Val) :
    (seqExecMem (prOrchInit initMM true 0 "sess" q m) true 0 "sess"
        (fun n => if n = "data_analyst" then rda else if n = "researcher" then rre else rco)).2
      = [("data_analyst", [("execution_mode", m), ("original_query", q)]),
         ("researcher", [("data_analyst", rda), ("execution_mode", m), ("original_query", q)]),
         ("copywriter",
           [("researcher", rre), ("data_analyst", rda), ("execution_mode", m),
            ("original_query", q)])] ∧
    (seqExecMem (prOrchInit initMM false 0 "sess" q m) false 0 "sess"
        (fun n => if n = "data_analyst" then rda else if n = "researcher" then rre else rco)).2
      = [("data_analyst", []), ("researcher", []), ("copywriter", [])] := by
  constructor <;> rfl

/-! ## Claim C3 — `get_full_context` contents

Two deviations from the claim: under the in-process fallback the method
returns `{}` (it only ever consults the Redis client), and even under Redis
entries are keyed by `key.split(":")[-1]`, which equals the prefix-stripped
local key only when the local key contains no `:`. -/

/-- C3 (counterexample): in fallback mode, `store_context` reports success
and the entry sits unexpired in the in-memory store, yet `get_full_context`
returns the empty mapping — not the mapping containing that entry required
by the claim, refuting "regardless of which backend". -/
theorem c3_counterexample :
    (storeContext initMM false 0 "s" "note" "v" 3600).2 = true ∧
    lookupVal ((storeContext initMM false 0 "s" "note" "v" 3600).1).mem "session:s:note"
      = some ("v", 3600) ∧
    (getFullContext ((storeContext initMM false 0 "s" "note" "v" 3600).1) false 1 "s").2
      = [] := by
  decide

/-- A `find?` by key returns the unique entry carrying that key. -/
theorem find?_of_mem_keyNodup (l : List (String × Val × Nat)) (k : String) (v : Val) (e : Nat)
    (hnd : (l.map Prod.fst).Nodup) (hm : (k, v, e) ∈ l) :
    l.find? (fun p => p.1 == k) = some (k, v, e) := by
  induction l with
  | nil => cases hm
  | cons hd tl ih =>
    simp only [List.map_cons, List.nodup_cons] at hnd
    rcases List.mem_cons.mp hm with heq | hm'
    · rw [← heq]
      exact List.find?_cons_of_pos _ (by simp)
    · have hk : hd.1 ≠ k := by
        intro he
        exact hnd.1 (he ▸ List.mem_map.mpr ⟨(k, v, e), hm', rfl⟩)
      rw [List.find?_cons_of_neg _ (by simp [hk])]
      exact ih hnd.2 hm'

/-- When every scanned key reads back its entry's value, the
`get_full_context` loop is a fold of dict insertions over the entries. -/
theorem foldGet_eq (store : List (String × Val × Nat)) (now : Nat)
    (F : List (String × Val × Nat)) (acc : List (String × Val))
    (h : ∀ p ∈ F, redisGet store now p.1 = some p.2.1) :
    (F.map (fun p => p.1)).foldl (fun ctx k =>
        match redisGet store now k with
        | some v => dictInsert ctx (lastSeg k) v
        | none => ctx) acc
      = (F.map (fun p => (lastSeg p.1, p.2.1))).foldl (fun d q => dictInsert d q.1 q.2) acc := by
  induction F generalizing acc with
  | nil => rfl
  | cons p F' ih =>
    simp only [List.map_cons, List.foldl_cons]
    rw [h p (List.mem_cons_self _ _)]
    exact ih _ (fun p' hp' => h p' (List.mem_cons_of_mem _ hp'))

/-- Folding dict insertions over pairwise-distinct keys just appends the
pairs in order. -/
theorem foldl_dictInsert_eq_append (ps acc : List (String × Val))
    (hnd : (acc.map Prod.fst ++ ps.map Prod.fst).Nodup) :
    ps.foldl (fun d q => dictInsert d q.1 q.2) acc = acc ++ ps := by
  induction ps generalizing acc with
  | nil => simp
  | cons q ps' ih =>
    simp only [List.foldl_cons]
    have hnotin : q.1 ∉ acc.map Prod.fst := by
      intro hin
      have := (List.nodup_append.mp hnd).2.2
      exact this hin (by simp)
    have hc : ¬ (acc.any (fun p => p.1 == q.1) = true) := by
      rw [List.any_eq_true]
      rintro ⟨p, hp, hpk⟩
      exact hnotin (List.mem_map.mpr ⟨p, hp, beq_iff_eq.mp hpk⟩)
    have hins : dictInsert acc q.1 q.2 = acc ++ [q] := by
      simp [dictInsert, hc]
    rw [hins, ih]
    · simp
    · simp only [List.map_append, List.map_cons] at hnd ⊢
      simpa [List.append_assoc] using hnd

/-- With a client object available, `get_full_context` scans the session's
non-expired Redis keys. -/
theorem getFullContext_redis (s : MMState) (probe : Bool) (now : Nat) (sid : String)
    (hc : s.redisClient = true) :
    (getFullContext s probe now sid).2
      = (redisKeys s.store now (sessPat sid)).foldl (fun ctx k =>
          match redisGet s.store now k with
          | some v => dictInsert ctx (lastSeg k) v
          | none => ctx) [] := by
  cases s; simp_all [getFullContext, getRedisClientStep]

/-- Without a client object, `get_full_context` returns the empty
mapping. -/
theorem getFullContext_fallback (s : MMState) (now : Nat) (sid : String)
    (h : s.redisClient = false) :
    (getFullContext s false now sid).2 = [] := by
  cases s; simp_all [getFullContext, getRedisClientStep]

/-- C3 (amended): under the networked backend (and with pairwise-distinct
store keys whose trailing segments do not collide within the session),
`get_full_context` returns exactly the non-expired entries stored under the
session, but keyed by the last `:`-separated segment of the full key —
which equals the prefix-stripped local key only when the local key contains
no `:`; under the in-process fallback it returns the empty mapping, never
the in-memory entries. -/
theorem c3_amended_thm :
    (∀ (s : MMState) (now : Nat) (sid lk : String) (v : Val),
      s.redisClient = true →
      (s.store.map Prod.fst).Nodup →
      ((s.store.filter (fun p => strIsPre (sessPat sid) p.1 && decide (now < p.2.2))).map
          (fun p => lastSeg p.1)).Nodup →
      ((lk, v) ∈ (getFullContext s true now sid).2 ↔
        ∃ k e, (k, v, e) ∈ s.store ∧ strIsPre (sessPat sid) k = true ∧ now < e ∧
          lastSeg k = lk)) ∧
    (∀ (s : MMState) (now : Nat) (sid : String),
      s.redisClient = false → (getFullContext s false now sid).2 = []) := by
  constructor
  · intro s now sid lk v hc hnd hseg
    rw [getFullContext_redis s true now sid hc]
    have hget : ∀ p ∈ s.store.filter
        (fun p => strIsPre (sessPat sid) p.1 && decide (now < p.2.2)),
        redisGet s.store now p.1 = some p.2.1 := by
      rintro ⟨k, v', e⟩ hp
      obtain ⟨hmem, hcond⟩ := List.mem_filter.mp hp
      have hcond' : strIsPre (sessPat sid) k = true ∧ now < e := by simpa using hcond
      simp only [redisGet, lookupVal]
      rw [find?_of_mem_keyNodup s.store k v' e hnd hmem]
      simp [hcond'.2]
    unfold redisKeys
    rw [foldGet_eq s.store now _ [] hget, foldl_dictInsert_eq_append]
    · simp only [List.nil_append, List.mem_map, List.mem_filter]
      constructor
      · rintro ⟨⟨k, v', e⟩, ⟨hmem, hcond⟩, hpair⟩
        have hcond' : strIsPre (sessPat sid) k = true ∧ now < e := by simpa using hcond
        injection hpair with h1 h2
        subst h2
        exact ⟨k, e, hmem, hcond'.1, hcond'.2, h1⟩
      · rintro ⟨k, e, hmem, hpre, hexp, hseg'⟩
        exact ⟨(k, v, e), ⟨hmem, by simp [hpre, hexp]⟩, by simp [hseg']⟩
    · simp only [List.nil_append, List.map_map]
      simpa using hseg
  · intro s now sid h
    exact getFullContext_fallback s now sid h

/-- C3 (witness for the amended theorem): a concrete unexpired entry is
reported under its trailing key segment in networked mode, and a
fallback-mode instance reports the empty mapping. -/
theorem c3_amended_witness :
    ("note", "v1") ∈ (getFullContext ⟨true, true, [("session:s:note", "v1", 10)], []⟩
        true 5 "s").2 ∧
    (getFullContext ⟨false, false, [], [("session:s:note", "v1", 10)]⟩ false 5 "s").2 = [] :=
  ⟨(c3_amended_thm.1 ⟨true, true, [("session:s:note", "v1", 10)], []⟩ 5 "s" "note" "v1"
      rfl (by decide) (by decide)).mpr
      ⟨"session:s:note", 10, by decide, by decide, by decide, by decide⟩,
   c3_amended_thm.2 ⟨false, false, [], [("session:s:note", "v1", 10)]⟩ 5 "s" rfl⟩

end AgentHub
